/-
Verification of the PDFree image-extraction / compression / pagination core
(`src/utils/pdfUtils.ts`) against its natural-language specification.

The TypeScript source is shallowly embedded below.  External collaborators
(pdf-lib object model, the inflate decoder, the canvas encoder, the PDF.js
rendering engine) are modelled as oracle data carried on the input records:
a candidate XObject carries the fields the code reads from the PDF dictionary
plus the result of the external inflate (`decodedStream`); a harvester item
carries the resolved shape PDF.js handed back.  Everything the repository's
own code does — guards, hashing, deduplication, branch selection, naming,
counting, error raising — is translated directly from the source.
-/
import Mathlib

namespace PDFree

/-- 32-bit signed wrap, as JavaScript's `| 0` / int32 shift semantics. -/
def wrap32 (n : Int) : Int := (n + 2 ^ 31) % 2 ^ 32 - 2 ^ 31

/-- One step of the dedup hash loop: `hash = ((hash << 5) - hash + byte) | 0`
(pdfUtils.ts line 834).  `hash << 5` wraps to int32 first, the remaining
arithmetic is exact in a double and the final `| 0` wraps again. -/
def hashStep (h : Int) (b : Nat) : Int := wrap32 (wrap32 (h * 32) - h + b)

/-- The sampled content hash of pdfUtils.ts lines 831-835: fold `hashStep`
over the first `min 100 length` stream bytes, starting from 0. -/
def jsHash (bytes : List Nat) : Int := (bytes.take 100).foldl hashStep 0

/-- JavaScript `s.includes(pat)`: `pat` occurs as a contiguous substring. -/
def strIncl (s pat : String) : Bool :=
  s.toList.tails.any (fun t => pat.toList.isPrefixOf t)

/-- Payload of one archive entry produced by extraction. -/
inductive Payload
  | jpgRaw (bytes : List Nat)      -- raw DCT stream bytes, stored verbatim
  | pngPixels (rgba : List Nat)    -- PNG encoded from an RGBA pixel buffer
  | pngBitmap (w h : Nat)          -- PNG drawn from a pre-decoded ImageBitmap
  | binRaw (bytes : List Nat)      -- raw stream bytes of an unrecognized filter
deriving DecidableEq, Repr

/-- One archive (zip) entry: `image_{seq}_page{page}.{ext}`. -/
structure Entry where
  seq : Nat
  page : Nat
  ext : String
  payload : Payload
deriving DecidableEq, Repr

/-- The file name under which an entry is stored in the archive. -/
def entryName (e : Entry) : String :=
  "image_" ++ toString e.seq ++ "_page" ++ toString e.page ++ "." ++ e.ext

/-- A candidate XObject as the walker sees it (pdfUtils.ts lines 793-830):
the dictionary fields the code reads, the raw stream bytes, and the result
of the external inflate (`decodePDFRawStream(...).decode()`), `none` when
that call throws. -/
structure XObjCand where
  isRawStream : Bool
  subtype : Option String
  width : Option Int
  height : Option Int
  colorSpace : Option String
  bitsPerComponent : Option Nat
  filter : Option String
  contents : List Nat
  decodedStream : Option (List Nat)
deriving DecidableEq, Repr

/-- `(bitsPerComponent as any)?.numberValue || 8` (line 857): a missing or
falsy (zero) declared value is coerced to 8. -/
def effBpc (r : XObjCand) : Nat :=
  match r.bitsPerComponent with
  | none => 8
  | some n => if n = 0 then 8 else n

/-- Walker-side dedup key, line 836: `` `${w}x${h}_${hash}_${len}` ``. -/
def walkFingerprint (w h : Int) (bytes : List Nat) : String :=
  toString w ++ "x" ++ toString h ++ "_" ++ toString (jsHash bytes) ++ "_" ++
    toString bytes.length

/-- Which channel interpretation the flate branch selects. -/
inductive ChannelInterp
  | rgbI
  | grayI
  | rgbaI
  | skipI
deriving DecidableEq, Repr

/-- Branch order of pdfUtils.ts lines 867-891: RGB if the length matches
3 channels OR the color-space name hints RGB; else gray if the length
matches 1 channel OR the name hints gray; else RGBA on a 4-channel length;
else skip. -/
def chooseInterp (pc dlen : Nat) (isRGB isGray : Bool) : ChannelInterp :=
  if dlen = pc * 3 ∨ isRGB = true then .rgbI
  else if dlen = pc ∨ isGray = true then .grayI
  else if dlen = pc * 4 then .rgbaI
  else .skipI

/-- RGB→RGBA expansion loop (lines 869-875): pixel `i` copies bytes
`3i, 3i+1, 3i+2` (missing trailing bytes clamp to 0) with alpha 255 while
`3i` is in range; the remainder of the buffer stays zero-initialized. -/
def rgbToRgba (pc : Nat) (d : List Nat) : List Nat :=
  (List.range pc).flatMap (fun i =>
    if 3 * i < d.length then
      [d.getD (3 * i) 0, d.getD (3 * i + 1) 0, d.getD (3 * i + 2) 0, 255]
    else [0, 0, 0, 0])

/-- Gray→RGBA expansion loop (lines 879-885). -/
def grayToRgba (pc : Nat) (d : List Nat) : List Nat :=
  (List.range pc).flatMap (fun i =>
    if i < d.length then [d.getD i 0, d.getD i 0, d.getD i 0, 255]
    else [0, 0, 0, 0])

/-- State threaded through extraction: the dedup set (`extractedHashes`),
the emitted-entry counter (`imageCount`) and the archive entries in order. -/
structure WState where
  hashes : List String
  count : Nat
  entries : List Entry
deriving DecidableEq, Repr

/-- Initial state: empty dedup set, zero counter, empty archive. -/
def initW : WState := ⟨[], 0, []⟩

/-- What the walker does with one candidate object. -/
inductive WalkAction
  | skip                                        -- `continue`, nothing recorded
  | record (key : String)                       -- hash recorded, no entry
  | emitA (key : String) (ext : String) (pl : Payload)
deriving DecidableEq, Repr

/-- Decision logic for one XObject, translated from pdfUtils.ts lines
794-912: guard chain (raw stream, `/Image` subtype, positive dimensions),
dedup check, then the filter dispatch (DCT passthrough / flate decode /
raw `.bin` fallback). -/
def walkDecision (hashes : List String) (r : XObjCand) : WalkAction :=
  if r.isRawStream = false then .skip
  else if r.subtype ≠ some "/Image" then .skip
  else
    match r.width, r.height with
    | some w, some h =>
      if w ≤ 0 ∨ h ≤ 0 then .skip
      else
        let key := walkFingerprint w h r.contents
        if hashes.contains key then .skip
        else
          let fs := r.filter.getD ""
          if strIncl fs "DCTDecode" || strIncl fs "/DCT" then
            .emitA key "jpg" (.jpgRaw r.contents)
          else if strIncl fs "FlateDecode" || strIncl fs "/Flat" || fs == "" then
            match r.decodedStream with
            | none => .record key
            | some d =>
              if effBpc r ≠ 8 then .record key
              else
                let pc := w.toNat * h.toNat
                let cs := r.colorSpace.getD ""
                match chooseInterp pc d.length (strIncl cs "RGB")
                    (strIncl cs "Gray" || strIncl cs "Grey") with
                | .rgbI => .emitA key "png" (.pngPixels (rgbToRgba pc d))
                | .grayI => .emitA key "png" (.pngPixels (grayToRgba pc d))
                | .rgbaI => .emitA key "png" (.pngPixels d)
                | .skipI => .record key
          else .emitA key "bin" (.binRaw r.contents)
    | _, _ => .skip

/-- Apply a walker action: a recorded hash is prepended to the dedup set,
an emitted entry bumps `imageCount` and is appended under the name
`image_{imageCount}_page{pageNum}`. -/
def applyWalkAction (pageNum : Nat) (st : WState) : WalkAction → WState
  | .skip => st
  | .record key => { st with hashes := key :: st.hashes }
  | .emitA key ext pl =>
      { hashes := key :: st.hashes
        count := st.count + 1
        entries := st.entries ++ [⟨st.count + 1, pageNum, ext, pl⟩] }

/-- Process one candidate XObject of page `pageNum`. -/
def procWalkObj (pageNum : Nat) (st : WState) (r : XObjCand) : WState :=
  applyWalkAction pageNum st (walkDecision st.hashes r)

/-- Inner loop over one page's XObject dictionary, in key encounter order. -/
def walkPage (pageNum : Nat) (st : WState) (objs : List XObjCand) : WState :=
  objs.foldl (procWalkObj pageNum) st

/-- Outer loop over pages, ascending, pages numbered from `pageNum`. -/
def walkPagesFrom (pageNum : Nat) (pages : List (List XObjCand)) (st : WState) :
    WState :=
  match pages with
  | [] => st
  | pg :: rest => walkPagesFrom (pageNum + 1) rest (walkPage pageNum st pg)

/-- Method 1 of `extractPDFImages`: the direct pdf-lib object-model walk. -/
def walkDoc (pages : List (List XObjCand)) : WState := walkPagesFrom 1 pages initW

/-- The shape of the object PDF.js resolves for a painted image operand
(pdfUtils.ts lines 969-1049): a pre-decoded `ImageBitmap`, an explicit
`{data, width, height}` pixel buffer, or nothing usable (null resolution,
timeout, or a non-byte-array `data`).  `blobSize` is the size the external
canvas PNG encoder reports for the repainted surface. -/
inductive HarvShape
  | bitmap (w h : Nat) (blobSize : Nat)
  | raw (w h : Nat) (data : List Nat) (blobSize : Nat)
  | unresolved
deriving DecidableEq, Repr

/-- One paint operation of a page's operator list, as the harvester loop
sees it: the operand name, whether the opcode is one of the image-paint
codes (85, 82, 88), and the resolved shape. -/
structure HarvItem where
  name : String
  fnIsImage : Bool
  shape : HarvShape
deriving DecidableEq, Repr

/-- Harvester dedup key for the bitmap shape, line 977: `` `pdfjs_${w}x${h}` ``. -/
def harvBitmapKey (w h : Nat) : String :=
  "pdfjs_" ++ toString w ++ "x" ++ toString h

/-- Harvester dedup key for the raw shape, line 1005:
`` `pdfjs_raw_${w}x${h}_${len}` ``. -/
def harvRawKey (w h len : Nat) : String :=
  "pdfjs_raw_" ++ toString w ++ "x" ++ toString h ++ "_" ++ toString len

/-- Harvester state: shared dedup set and counter continue from the walker;
`processed` is the per-page `processedImageNames` set. -/
structure HState where
  hashes : List String
  count : Nat
  entries : List Entry
  processed : List String
deriving DecidableEq, Repr

/-- What the harvester does with one paint operation. -/
inductive HarvAction
  | hskip                        -- opcode not an image paint, or name already seen
  | hmark                        -- operand name marked processed, nothing else
  | hrecord (key : String)       -- name marked + hash recorded, no entry
  | hemit (key : String) (pl : Payload)
deriving DecidableEq, Repr

/-- Decision logic for one paint operation, translated from pdfUtils.ts
lines 946-1051: skip non-image opcodes and repeated operand names; the
bitmap shape needs positive dimensions, a fresh `pdfjs_{w}x{h}` key and an
encoded blob larger than 100 bytes; the raw shape needs truthy dimensions,
a fresh `pdfjs_raw_{w}x{h}_{len}` key, a buffer length matching 4/3/1
channels (tried in that order) and a blob larger than 100 bytes. -/
def harvDecision (hashes processed : List String) (it : HarvItem) : HarvAction :=
  if it.fnIsImage = false then .hskip
  else if processed.contains it.name then .hskip
  else
    match it.shape with
    | .unresolved => .hmark
    | .bitmap w h bs =>
      if 0 < w ∧ 0 < h then
        let key := harvBitmapKey w h
        if hashes.contains key then .hmark
        else if 100 < bs then .hemit key (.pngBitmap w h) else .hrecord key
      else .hmark
    | .raw w h d bs =>
      if w = 0 ∨ h = 0 then .hmark
      else
        let key := harvRawKey w h d.length
        if hashes.contains key then .hmark
        else
          let pc := w * h
          if d.length = pc * 4 then
            if 100 < bs then .hemit key (.pngPixels d) else .hrecord key
          else if d.length = pc * 3 then
            if 100 < bs then .hemit key (.pngPixels (rgbToRgba pc d))
            else .hrecord key
          else if d.length = pc then
            if 100 < bs then .hemit key (.pngPixels (grayToRgba pc d))
            else .hrecord key
          else .hrecord key

/-- Apply a harvester action; emitted entries are PNGs named
`image_{imageCount}_page{pageNum}`. -/
def applyHarvAction (pageNum : Nat) (name : String) (st : HState) :
    HarvAction → HState
  | .hskip => st
  | .hmark => { st with processed := name :: st.processed }
  | .hrecord key =>
      { st with processed := name :: st.processed, hashes := key :: st.hashes }
  | .hemit key pl =>
      { hashes := key :: st.hashes
        count := st.count + 1
        entries := st.entries ++ [⟨st.count + 1, pageNum, "png", pl⟩]
        processed := name :: st.processed }

/-- Process one paint operation of page `pageNum`. -/
def procHarvItem (pageNum : Nat) (st : HState) (it : HarvItem) : HState :=
  applyHarvAction pageNum it.name st (harvDecision st.hashes st.processed it)

/-- Inner loop over one page's operator list; `processedImageNames` is a
fresh set per page. -/
def harvestPage (pageNum : Nat) (st : HState) (items : List HarvItem) : HState :=
  items.foldl (procHarvItem pageNum) { st with processed := [] }

/-- Outer harvester loop over pages, ascending from `pageNum`. -/
def harvestPagesFrom (pageNum : Nat) (pages : List (List HarvItem))
    (st : HState) : HState :=
  match pages with
  | [] => st
  | pg :: rest => harvestPagesFrom (pageNum + 1) rest (harvestPage pageNum st pg)

/-- Method 2 of `extractPDFImages`: the PDF.js rendering harvest.  It runs
with the walker's dedup set and the counter value 0 (it is only ever
entered when `imageCount === 0`). -/
def harvestDoc (pages : List (List HarvItem)) (hashes0 : List String) : HState :=
  harvestPagesFrom 1 pages ⟨hashes0, 0, [], []⟩

/-- A document as `extractPDFImages` consumes it: the per-page XObject
candidates the pdf-lib walk enumerates, and the per-page paint operations
the PDF.js harvest would enumerate. -/
structure PdfImageDoc where
  walkPages : List (List XObjCand)
  harvPages : List (List HarvItem)
deriving Repr

/-- The user-facing error text thrown at pdfUtils.ts lines 1059-1068. -/
def noImagesError : String :=
  "No extractable embedded images found in this PDF.\n\n" ++
  "Possible reasons:\n" ++
  "• The PDF contains vector graphics instead of images\n" ++
  "• Images are stored in a format that cannot be directly extracted\n" ++
  "• The PDF was created by rendering content as full pages\n\n" ++
  "Tip: Use \"PDF to Images\" tool instead to convert entire pages to images."

/-- `extractPDFImages`, with its control flow made explicit: run the walk;
run the harvest only when the walk emitted zero entries (`imageCount === 0`,
line 920); throw the descriptive error when the final count is zero
(line 1059), otherwise return the archive.  The boolean reports whether the
fallback harvester was invoked. -/
def extractRun (doc : PdfImageDoc) : Except String (List Entry) × Bool :=
  let st1 := walkDoc doc.walkPages
  if st1.count = 0 then
    let st2 := harvestDoc doc.harvPages st1.hashes
    if st2.count = 0 then (.error noImagesError, true)
    else (.ok (st1.entries ++ st2.entries), true)
  else (.ok st1.entries, false)

/-- The result of `extractPDFImages` (error, or the archive's entry list). -/
def extractPDFImages (doc : PdfImageDoc) : Except String (List Entry) :=
  (extractRun doc).1

/-- `CompressionOptions` (pdfUtils.ts lines 591-595). -/
structure CompressionOptions where
  imageQuality : Nat
  dpi : Nat
  fullPageMode : Bool
deriving DecidableEq, Repr

/-- The lossy quality `compressPDF` passes to the JPEG encoder for every
page (lines 602, 631-641): `imageQuality / 100` in full-page mode, and
`Math.max(quality, 0.3)` otherwise. -/
def compressPageQuality (o : CompressionOptions) : ℚ :=
  let quality : ℚ := o.imageQuality / 100
  if o.fullPageMode then quality else max quality (3 / 10)

/-- A4 page width in CSS pixels (pdfUtils.ts line 186). -/
def A4_WIDTH_PX : Nat := 794

/-- A4 page height in CSS pixels (pdfUtils.ts line 187); this is the
`usableHeight` of the pagination slicer. -/
def A4_HEIGHT_PX : Nat := 1123

/-- One page slice of `renderHtmlToPageImages`: the fresh canvas dimensions
(at capture scale 2), its white background fill, and how many device pixels
of captured content were drawn onto it (`srcH` when positive, else 0). -/
structure PageSlice where
  canvasW : Nat
  canvasH : Nat
  whiteBg : Bool
  drawnH : Int
deriving DecidableEq, Repr

/-- The pagination slicer of `renderHtmlToPageImages` (pdfUtils.ts lines
259-302), with the fixed page height kept as a parameter (the source
instantiates it with `A4_HEIGHT_PX`): `totalPages = max(1, ceil(H / P))`
slices; slice `p` is a fresh white canvas of one page's device dimensions
onto which the capture rows `[2pP, 2pP + srcH)` are drawn,
`srcH = min(2P, 2H - 2pP)`, drawn only when positive. -/
def paginationSlices (contentHeight pageHeight : Nat) : List PageSlice :=
  let totalPages := max 1 ((contentHeight + pageHeight - 1) / pageHeight)
  (List.range totalPages).map (fun (page : Nat) =>
    let srcY : Int := (page : Int) * (pageHeight : Int) * 2
    let srcH : Int := min ((pageHeight : Int) * 2) ((contentHeight : Int) * 2 - srcY)
    { canvasW := A4_WIDTH_PX * 2
      canvasH := pageHeight * 2
      whiteBg := true
      drawnH := if 0 < srcH then srcH else 0 })

/-- The slicer as the source runs it, at the fixed A4 page height. -/
def renderSlices (contentHeight : Nat) : List PageSlice :=
  paginationSlices contentHeight A4_HEIGHT_PX

/-- A loaded document as `protectPDF` touches it: the producer metadata
field, the rest of the document carried opaquely. -/
structure PdfMeta where
  producer : String
  title : String
  pagesBytes : List (List Nat)
  encrypted : Bool
deriving DecidableEq, Repr

/-- `protectPDF` (pdfUtils.ts lines 1137-1142): load, set the producer to
`'PDFree - Protected'`, save.  The password parameter is bound but unused. -/
def protectPDF (d : PdfMeta) (_pw : String) : PdfMeta :=
  { d with producer := "PDFree - Protected" }

/-- Well-formedness of an emitted archive prefix: the counter mirrors the
entry count, sequence numbers are exactly `1..n` in order, page numbers are
non-decreasing and bounded by the page currently being processed. -/
def archiveOk (p : Nat) (count : Nat) (entries : List Entry) : Prop :=
  count = entries.length ∧
  entries.map Entry.seq = List.range' 1 entries.length ∧
  entries.Pairwise (fun a b => a.page ≤ b.page) ∧
  ∀ e ∈ entries, e.page ≤ p

/-- Concrete walkable candidate: a 1×1 DCT (JPEG) image stream. -/
def rDct : XObjCand :=
  ⟨true, some "/Image", some 1, some 1, none, none, some "/DCTDecode", [1], none⟩

/-- Concrete walkable candidate: a second, distinct 1×1 DCT image stream. -/
def rDct2 : XObjCand :=
  ⟨true, some "/Image", some 1, some 1, none, none, some "/DCTDecode", [2], none⟩

/-- Concrete walkable candidate: a 1×1 flate image whose inflate throws
(`decodedStream = none`) — it is fingerprinted but emits nothing. -/
def rFlateFail : XObjCand :=
  ⟨true, some "/Image", some 1, some 1, none, none, some "/FlateDecode", [5], none⟩

/-- Concrete harvester item: a resolved raw 1×1 pixel buffer whose content
bytes equal `rFlateFail`'s, with a 200-byte encoded blob. -/
def hRaw : HarvItem := ⟨"img1", true, .raw 1 1 [5] 200⟩

/-- Document whose walk fingerprints one record but emits nothing, and whose
harvest then meets a record agreeing with it on width, height, byte length
and content bytes. -/
def docC3 : PdfImageDoc := ⟨[[rFlateFail]], [[hRaw]]⟩

/-- A document with no walkable and no paintable images at all. -/
def docEmpty : PdfImageDoc := ⟨[], []⟩

/-- A two-page document with one distinct DCT image per page. -/
def docTwoJpgs : PdfImageDoc := ⟨[[rDct], [rDct2]], []⟩

/-- Concrete walkable candidate: 2×1 flate image whose decoded buffer has
the one-channel length (2 bytes) but whose color-space name contains
`RGB`. -/
def rGrayLenRgbName : XObjCand :=
  ⟨true, some "/Image", some 2, some 1, some "/DeviceRGB", some 8,
    some "/FlateDecode", [9, 9], some [10, 20]⟩

/-- Concrete walkable candidate: 1×1 flate image whose decoded length (2)
matches no channel count and whose color space is CMYK. -/
def rBadFlate : XObjCand :=
  ⟨true, some "/Image", some 1, some 1, some "/DeviceCMYK", some 8,
    some "/FlateDecode", [1, 2, 3], some [0, 0]⟩

/-- Concrete walkable candidate: 1×1 flate grayscale image with a declared
`BitsPerComponent` of 0. -/
def rBpc0 : XObjCand :=
  ⟨true, some "/Image", some 1, some 1, some "/DeviceGray", some 0,
    some "/FlateDecode", [9], some [7]⟩

/-- Concrete walkable candidate: 1×1 flate grayscale image with a declared
`BitsPerComponent` of 16. -/
def rBpc16 : XObjCand :=
  ⟨true, some "/Image", some 1, some 1, some "/DeviceGray", some 16,
    some "/FlateDecode", [9], some [7]⟩

lemma archiveOk_mono {p q cnt : Nat} {es : List Entry}
    (h : archiveOk p cnt es) (hpq : p ≤ q) : archiveOk q cnt es :=
  ⟨h.1, h.2.1, h.2.2.1, fun e he => le_trans (h.2.2.2 e he) hpq⟩

lemma archiveOk_emit {p cnt : Nat} {es : List Entry} {e : Entry}
    (h : archiveOk p cnt es) (hseq : e.seq = cnt + 1) (hpage : e.page = p) :
    archiveOk p (cnt + 1) (es ++ [e]) := by
  obtain ⟨h1, h2, h3, h4⟩ := h
  refine ⟨by simp [h1], ?_, ?_, ?_⟩
  · rw [List.map_append, h2, List.length_append, List.map_singleton,
      List.length_singleton, List.range'_concat]
    have : e.seq = 1 + 1 * es.length := by omega
    rw [this]
  · rw [List.pairwise_append]
    refine ⟨h3, List.pairwise_singleton _ _, ?_⟩
    intro a ha b hb
    rw [List.mem_singleton] at hb
    subst hb
    rw [hpage]
    exact h4 a ha
  · intro x hx
    rcases List.mem_append.1 hx with hx | hx
    · exact h4 x hx
    · rw [List.mem_singleton] at hx
      subst hx
      simp [hpage]

lemma procWalkObj_archiveOk {p : Nat} {st : WState} {r : XObjCand}
    (h : archiveOk p st.count st.entries) :
    archiveOk p (procWalkObj p st r).count (procWalkObj p st r).entries := by
  unfold procWalkObj
  cases walkDecision st.hashes r with
  | skip => exact h
  | record k => exact h
  | emitA k ext pl =>
    simpa [applyWalkAction] using archiveOk_emit h rfl rfl

lemma walkPage_archiveOk {p : Nat} (objs : List XObjCand) (st : WState)
    (h : archiveOk p st.count st.entries) :
    archiveOk p (walkPage p st objs).count (walkPage p st objs).entries := by
  induction objs generalizing st with
  | nil => exact h
  | cons o rest ih =>
    exact ih (procWalkObj p st o) (procWalkObj_archiveOk h)

lemma walkPagesFrom_archiveOk (pages : List (List XObjCand)) (pnum : Nat)
    (st : WState) (h : archiveOk pnum st.count st.entries) :
    archiveOk (pnum + pages.length) (walkPagesFrom pnum pages st).count
      (walkPagesFrom pnum pages st).entries := by
  induction pages generalizing pnum st with
  | nil => simpa using h
  | cons pg rest ih =>
    have h1 := walkPage_archiveOk pg st h
    have h2 := archiveOk_mono h1 (Nat.le_succ pnum)
    have h3 := ih (pnum + 1) (walkPage pnum st pg) h2
    have he : pnum + 1 + rest.length = pnum + (pg :: rest).length := by
      simp; omega
    rw [he] at h3
    exact h3

lemma walkDoc_archiveOk (pages : List (List XObjCand)) :
    archiveOk (1 + pages.length) (walkDoc pages).count (walkDoc pages).entries := by
  refine walkPagesFrom_archiveOk pages 1 initW ?_
  exact ⟨rfl, rfl, List.Pairwise.nil, by intro e he; simp [initW] at he⟩

lemma walkDoc_count_eq (pages : List (List XObjCand)) :
    (walkDoc pages).count = (walkDoc pages).entries.length :=
  (walkDoc_archiveOk pages).1

lemma procHarvItem_archiveOk {p : Nat} {st : HState} {it : HarvItem}
    (h : archiveOk p st.count st.entries) :
    archiveOk p (procHarvItem p st it).count (procHarvItem p st it).entries := by
  unfold procHarvItem
  cases harvDecision st.hashes st.processed it with
  | hskip => exact h
  | hmark => exact h
  | hrecord k => exact h
  | hemit k pl =>
    simpa [applyHarvAction] using archiveOk_emit h rfl rfl

lemma harvestPage_archiveOk {p : Nat} (items : List HarvItem) (st : HState)
    (h : archiveOk p st.count st.entries) :
    archiveOk p (harvestPage p st items).count (harvestPage p st items).entries := by
  unfold harvestPage
  generalize hst : ({ st with processed := [] } : HState) = st0
  have h0 : archiveOk p st0.count st0.entries := by rw [← hst]; exact h
  clear hst h
  induction items generalizing st0 with
  | nil => exact h0
  | cons o rest ih =>
    exact ih (procHarvItem p st0 o) (procHarvItem_archiveOk h0)

lemma harvestPagesFrom_archiveOk (pages : List (List HarvItem)) (pnum : Nat)
    (st : HState) (h : archiveOk pnum st.count st.entries) :
    archiveOk (pnum + pages.length) (harvestPagesFrom pnum pages st).count
      (harvestPagesFrom pnum pages st).entries := by
  induction pages generalizing pnum st with
  | nil => simpa using h
  | cons pg rest ih =>
    have h1 := harvestPage_archiveOk pg st h
    have h2 := archiveOk_mono h1 (Nat.le_succ pnum)
    have h3 := ih (pnum + 1) (harvestPage pnum st pg) h2
    have he : pnum + 1 + rest.length = pnum + (pg :: rest).length := by
      simp; omega
    rw [he] at h3
    exact h3

lemma harvestDoc_archiveOk (pages : List (List HarvItem)) (hashes0 : List String) :
    archiveOk (1 + pages.length) (harvestDoc pages hashes0).count
      (harvestDoc pages hashes0).entries := by
  refine harvestPagesFrom_archiveOk pages 1 ⟨hashes0, 0, [], []⟩ ?_
  exact ⟨rfl, rfl, List.Pairwise.nil, by intro e he; simp at he⟩

lemma harvestDoc_count_eq (pages : List (List HarvItem)) (hashes0 : List String) :
    (harvestDoc pages hashes0).count = (harvestDoc pages hashes0).entries.length :=
  (harvestDoc_archiveOk pages hashes0).1

/-- C1.  `extractPDFImages` raises its single descriptive user-facing error
exactly when, after the object-model walk and (then) the content-stream
harvest, zero archive entries were emitted; whenever either strategy emitted
at least one entry, it returns the (non-empty) archive and raises nothing. -/
theorem extract_error_iff_zero_recovered (doc : PdfImageDoc) :
    (extractPDFImages doc = Except.error noImagesError ↔
      (walkDoc doc.walkPages).entries = [] ∧
      (harvestDoc doc.harvPages (walkDoc doc.walkPages).hashes).entries = [])
    ∧ (extractPDFImages doc = Except.error noImagesError ∨
      ∃ es, extractPDFImages doc = Except.ok es ∧ es ≠ []) := by
  have hw := walkDoc_count_eq doc.walkPages
  have hh := harvestDoc_count_eq doc.harvPages (walkDoc doc.walkPages).hashes
  unfold extractPDFImages extractRun
  by_cases h1 : (walkDoc doc.walkPages).count = 0
  · have hwnil : (walkDoc doc.walkPages).entries = [] :=
      List.eq_nil_of_length_eq_zero (by omega)
    by_cases h2 : (harvestDoc doc.harvPages (walkDoc doc.walkPages).hashes).count = 0
    · have hhnil : (harvestDoc doc.harvPages (walkDoc doc.walkPages).hashes).entries = [] :=
        List.eq_nil_of_length_eq_zero (by omega)
      simp [h1, h2, hwnil, hhnil]
    · have hhne : (harvestDoc doc.harvPages (walkDoc doc.walkPages).hashes).entries ≠ [] := by
        intro hc
        rw [hc] at hh
        simp at hh
        exact h2 hh
      simp only [h1, if_pos, if_neg h2]
      constructor
      · constructor
        · intro hcontra
          exact absurd hcontra (by simp)
        · intro ⟨_, hc2⟩
          exact absurd hc2 hhne
      · right
        refine ⟨(walkDoc doc.walkPages).entries ++
          (harvestDoc doc.harvPages (walkDoc doc.walkPages).hashes).entries, rfl, ?_⟩
        simp [hwnil, hhne]
  · have hwne : (walkDoc doc.walkPages).entries ≠ [] := by
      intro hc
      rw [hc] at hw
      simp at hw
      exact h1 hw
    simp only [if_neg h1]
    constructor
    · constructor
      · intro hcontra
        exact absurd hcontra (by simp)
      · intro ⟨hc1, _⟩
        exact absurd hc1 hwne
    · right
      exact ⟨(walkDoc doc.walkPages).entries, rfl, hwne⟩

/-- C1 witness: on a document with no raster content at all the operation
raises exactly the descriptive error. -/
theorem extract_error_iff_zero_recovered_witness :
    extractPDFImages docEmpty = Except.error noImagesError :=
  ((extract_error_iff_zero_recovered docEmpty).1).mpr ⟨rfl, rfl⟩

/-- C2.  The fallback content-stream harvester is invoked exactly when the
direct object-model walk emitted zero archive entries for the whole
document; if the walk emitted at least one entry it is never invoked. -/
theorem harvester_invoked_iff_walk_emitted_none (doc : PdfImageDoc) :
    (extractRun doc).2 = true ↔ (walkDoc doc.walkPages).entries = [] := by
  have hw := walkDoc_count_eq doc.walkPages
  unfold extractRun
  by_cases h1 : (walkDoc doc.walkPages).count = 0
  · have hwnil : (walkDoc doc.walkPages).entries = [] :=
      List.eq_nil_of_length_eq_zero (by omega)
    by_cases h2 : (harvestDoc doc.harvPages (walkDoc doc.walkPages).hashes).count = 0 <;>
      simp [h1, h2, hwnil]
  · have hwne : (walkDoc doc.walkPages).entries ≠ [] := by
      intro hc
      rw [hc] at hw
      simp at hw
      exact h1 hw
    simp [if_neg h1, hwne]

/-- C2 witness: the walk of the empty document emits nothing, so the
harvester runs. -/
theorem harvester_invoked_iff_walk_emitted_none_witness :
    (extractRun docEmpty).2 = true :=
  (harvester_invoked_iff_walk_emitted_none docEmpty).mpr rfl

/-- C9.  In the archive returned by extraction, sequence numbers are exactly
`1, 2, ...` in emission order (so they start at 1 and increase by exactly 1
per emitted entry) and page numbers are non-decreasing along the sequence:
pages are processed in ascending order and, within a page, records in
encounter order. -/
theorem extract_names_sequential_pages_monotone (doc : PdfImageDoc)
    (es : List Entry) (h : extractPDFImages doc = Except.ok es) :
    es.map Entry.seq = List.range' 1 es.length
    ∧ es.Pairwise (fun a b => a.page ≤ b.page) := by
  have hwOk := walkDoc_archiveOk doc.walkPages
  have hhOk := harvestDoc_archiveOk doc.harvPages (walkDoc doc.walkPages).hashes
  have hw := hwOk.1
  unfold extractPDFImages extractRun at h
  by_cases h1 : (walkDoc doc.walkPages).count = 0
  · have hwnil : (walkDoc doc.walkPages).entries = [] :=
      List.eq_nil_of_length_eq_zero (by omega)
    by_cases h2 : (harvestDoc doc.harvPages (walkDoc doc.walkPages).hashes).count = 0
    · simp [h1, h2] at h
    · simp only [h1, if_pos, if_neg h2] at h
      have hes : es = (harvestDoc doc.harvPages (walkDoc doc.walkPages).hashes).entries := by
        rw [hwnil] at h
        simpa using (Except.ok.inj h).symm
      rw [hes]
      exact ⟨hhOk.2.1, hhOk.2.2.1⟩
  · simp only [if_neg h1] at h
    have hes : es = (walkDoc doc.walkPages).entries := (Except.ok.inj h).symm
    rw [hes]
    exact ⟨hwOk.2.1, hwOk.2.2.1⟩

/-- C9 witness: a two-page document with one distinct JPEG per page yields
entries `image_1_page1.jpg`, `image_2_page2.jpg`. -/
theorem extract_names_sequential_pages_monotone_witness :
    (([⟨1, 1, "jpg", Payload.jpgRaw [1]⟩,
       ⟨2, 2, "jpg", Payload.jpgRaw [2]⟩] : List Entry).map Entry.seq =
        List.range' 1 2)
    ∧ ([⟨1, 1, "jpg", Payload.jpgRaw [1]⟩,
        ⟨2, 2, "jpg", Payload.jpgRaw [2]⟩] : List Entry).Pairwise
          (fun a b => a.page ≤ b.page) :=
  extract_names_sequential_pages_monotone docTwoJpgs
    [⟨1, 1, "jpg", Payload.jpgRaw [1]⟩, ⟨2, 2, "jpg", Payload.jpgRaw [2]⟩] rfl

/-- C10.  `protectPDF` ignores the supplied password: any two passwords
produce identical output, namely the input re-saved with the producer set to
`PDFree - Protected`; pages, title and encryption status are untouched, so
no password protection is actually applied. -/
theorem protectPDF_password_independent (d : PdfMeta) (pw1 pw2 : String) :
    protectPDF d pw1 = protectPDF d pw2
    ∧ (protectPDF d pw1).producer = "PDFree - Protected"
    ∧ (protectPDF d pw1).encrypted = d.encrypted
    ∧ (protectPDF d pw1).pagesBytes = d.pagesBytes
    ∧ (protectPDF d pw1).title = d.title :=
  ⟨rfl, rfl, rfl, rfl, rfl⟩

/-- C5.  For every `CompressionOptions`, `fullPageMode = false` encodes each
page at `max(imageQuality/100, 0.30)` — never below the 0.30 floor, even for
`imageQuality = 1` — while `fullPageMode = true` encodes at exactly
`imageQuality/100` with no floor. -/
theorem compress_quality_floor (o : CompressionOptions) :
    compressPageQuality { o with fullPageMode := false } =
      max ((o.imageQuality : ℚ) / 100) (3 / 10)
    ∧ (3 : ℚ) / 10 ≤ compressPageQuality { o with fullPageMode := false }
    ∧ compressPageQuality { o with fullPageMode := true } =
      (o.imageQuality : ℚ) / 100
    ∧ compressPageQuality ⟨1, o.dpi, false⟩ = 3 / 10 := by
  refine ⟨rfl, ?_, rfl, ?_⟩
  · exact le_max_right _ _
  · show max ((1 : ℚ) / 100) (3 / 10) = 3 / 10
    rw [max_eq_right]
    norm_num

/-- C4 counterexample.  A flate record with one-channel buffer length
(`decoded.length = w*h = 2`) and an `RGB` color-space name is interpreted as
RGB (the name hint wins), not grayscale: the emitted pixel buffer is the
RGB expansion of the two bytes, which differs from the grayscale
expansion.  This falsifies the claim that the length-based match is
preferred in this tie. -/
theorem rgb_name_overrides_gray_length :
    chooseInterp 2 2 true false = ChannelInterp.rgbI
    ∧ chooseInterp 2 2 true false ≠ ChannelInterp.grayI
    ∧ (procWalkObj 1 initW rGrayLenRgbName).entries =
        [⟨1, 1, "png", Payload.pngPixels [10, 20, 0, 255, 0, 0, 0, 0]⟩]
    ∧ rgbToRgba 2 [10, 20] = [10, 20, 0, 255, 0, 0, 0, 0]
    ∧ grayToRgba 2 [10, 20] = [10, 10, 10, 255, 20, 20, 20, 255]
    ∧ rgbToRgba 2 [10, 20] ≠ grayToRgba 2 [10, 20] :=
  ⟨rfl, by decide, rfl, rfl, rfl, by decide⟩

/-- C4 amended.  Ties between the one-channel length match and the RGB
color-space name hint are resolved in favour of the name hint: the RGB
branch is tested first and its `isRGB` disjunct fires, so a record whose
decoded length equals `w*h` but whose color-space name contains `RGB` is
interpreted as RGB, never as grayscale. -/
theorem rgb_hint_wins_gray_length_tie (pc : Nat) (g : Bool) :
    chooseInterp pc pc true g = ChannelInterp.rgbI
    ∧ chooseInterp pc pc true g ≠ ChannelInterp.grayI := by
  constructor
  · unfold chooseInterp
    rw [if_pos (Or.inr rfl)]
  · unfold chooseInterp
    rw [if_pos (Or.inr rfl)]
    intro hc
    exact ChannelInterp.noConfusion hc

lemma getLastD_map_range {α : Type} (f : ℕ → α) (n : ℕ) (d : α) (hn : 0 < n) :
    ((List.range n).map f).getLastD d = f (n - 1) := by
  obtain ⟨m, rfl⟩ : ∃ m, n = m + 1 := ⟨n - 1, by omega⟩
  rw [List.range_succ, List.map_append, List.map_singleton, List.getLastD_concat]
  simp

lemma ceilDiv_bounds (H P : Nat) (hP : 0 < P) (hH : 0 < H) :
    1 ≤ (H + P - 1) / P ∧ H ≤ ((H + P - 1) / P) * P ∧
      ((H + P - 1) / P - 1) * P < H := by
  have hdm := Nat.div_add_mod (H + P - 1) P
  have hmod := Nat.mod_lt (H + P - 1) hP
  have h1 : 1 ≤ (H + P - 1) / P := (Nat.le_div_iff_mul_le hP).mpr (by omega)
  refine ⟨h1, ?_, ?_⟩
  · rw [Nat.mul_comm]
    omega
  · rw [Nat.sub_one_mul, Nat.mul_comm]
    omega

/-- C6.  For a capture of content height `H` and page height `P > 0` the
slicer produces exactly `max 1 ⌈H/P⌉` slices (`(H + P - 1) / P` is the
natural-number ceiling of `H / P`), each a fresh white canvas of exactly one
page's pixel dimensions, and the drawn height of the final slice is
`H - P*(pageCount - 1)` (stated in capture device pixels, i.e. scaled
by 2). -/
theorem pagination_slice_count_and_last_height (H P : Nat) (hP : 0 < P) :
    (paginationSlices H P).length = max 1 ((H + P - 1) / P)
    ∧ (∀ s ∈ paginationSlices H P,
        s.canvasW = A4_WIDTH_PX * 2 ∧ s.canvasH = P * 2 ∧ s.whiteBg = true)
    ∧ paginationSlices H P ≠ []
    ∧ ((paginationSlices H P).getLastD ⟨0, 0, false, 0⟩).drawnH =
        2 * ((H : Int) - (P : Int) * (((paginationSlices H P).length - 1 : Nat) : Int)) := by
  have hlen : (paginationSlices H P).length = max 1 ((H + P - 1) / P) := by
    unfold paginationSlices
    dsimp only
    rw [List.length_map, List.length_range]
  have hnpos : 0 < max 1 ((H + P - 1) / P) :=
    lt_of_lt_of_le Nat.one_pos (le_max_left 1 _)
  refine ⟨hlen, ?_, ?_, ?_⟩
  · intro s hs
    unfold paginationSlices at hs
    dsimp only at hs
    rw [List.mem_map] at hs
    obtain ⟨p, _, rfl⟩ := hs
    exact ⟨rfl, rfl, rfl⟩
  · have h1 : 0 < (paginationSlices H P).length := by rw [hlen]; exact hnpos
    exact List.ne_nil_of_length_pos h1
  · rw [hlen]
    unfold paginationSlices
    dsimp only
    rw [getLastD_map_range _ _ _ hnpos]
    dsimp only
    by_cases hH : H = 0
    · subst hH
      have hq0 : (0 + P - 1) / P = 0 := Nat.div_eq_of_lt (by omega)
      rw [hq0]
      norm_num
    · have hHpos : 0 < H := Nat.pos_of_ne_zero hH
      obtain ⟨hq1, hle, hlt⟩ := ceilDiv_bounds H P hP hHpos
      generalize hgen : (H + P - 1) / P = q at hq1 hle hlt ⊢
      have hmax : max 1 q = q := by omega
      rw [hmax]
      obtain ⟨m, rfl⟩ : ∃ m, q = m + 1 := ⟨q - 1, by omega⟩
      simp only [Nat.add_sub_cancel] at hlt ⊢
      have hleZ : (H : Int) ≤ ((m : Int) + 1) * P := by exact_mod_cast hle
      have hltZ : (m : Int) * P < H := by exact_mod_cast hlt
      have hA : (H : Int) * 2 - (m : Int) * P * 2 ≤ (P : Int) * 2 := by nlinarith
      have hB : 0 < (H : Int) * 2 - (m : Int) * P * 2 := by linarith
      rw [min_eq_right hA, if_pos hB]
      ring

/-- C6 witness: a capture of height 2500 at the fixed A4 page height 1123
yields 3 slices. -/
theorem pagination_slice_count_and_last_height_witness :
    (paginationSlices 2500 1123).length = max 1 ((2500 + 1123 - 1) / 1123) :=
  (pagination_slice_count_and_last_height 2500 1123 (by norm_num)).1

lemma walkDecision_guards (hashes : List String) (r : XObjCand) (w h : Int)
    (h1 : r.isRawStream = true) (h2 : r.subtype = some "/Image")
    (h3 : r.width = some w) (h4 : r.height = some h)
    (h5 : ¬(w ≤ 0 ∨ h ≤ 0))
    (h6 : hashes.contains (walkFingerprint w h r.contents) = false) :
    walkDecision hashes r =
      (if strIncl (r.filter.getD "") "DCTDecode" || strIncl (r.filter.getD "") "/DCT" then
        .emitA (walkFingerprint w h r.contents) "jpg" (.jpgRaw r.contents)
      else if strIncl (r.filter.getD "") "FlateDecode" || strIncl (r.filter.getD "") "/Flat"
          || (r.filter.getD "" == "") then
        match r.decodedStream with
        | none => .record (walkFingerprint w h r.contents)
        | some d =>
          if effBpc r ≠ 8 then .record (walkFingerprint w h r.contents)
          else
            match chooseInterp (w.toNat * h.toNat) d.length
                (strIncl (r.colorSpace.getD "") "RGB")
                (strIncl (r.colorSpace.getD "") "Gray" || strIncl (r.colorSpace.getD "") "Grey") with
            | .rgbI => .emitA (walkFingerprint w h r.contents) "png"
                (.pngPixels (rgbToRgba (w.toNat * h.toNat) d))
            | .grayI => .emitA (walkFingerprint w h r.contents) "png"
                (.pngPixels (grayToRgba (w.toNat * h.toNat) d))
            | .rgbaI => .emitA (walkFingerprint w h r.contents) "png" (.pngPixels d)
            | .skipI => .record (walkFingerprint w h r.contents)
      else .emitA (walkFingerprint w h r.contents) "bin" (.binRaw r.contents)) := by
  unfold walkDecision
  rw [h1, h2, h3, h4]
  simp only [Bool.true_eq_false, if_false, if_neg h5, h6, ne_eq, not_true_eq_false,
    Bool.false_eq_true, reduceIte]

/-- C7 amended.  For every accepted (image-subtype, positive-dimension,
not-yet-seen) walker record: a DCT-style filter yields a `.jpg` entry whose
payload is the raw stream bytes unchanged; a filter that is neither DCT- nor
deflate-style nor empty yields a `.bin` entry with the raw bytes unchanged;
a deflate-style (or empty) filter yields a `.png` entry built from the
decoded pixel buffer only when the external inflate succeeded, the effective
bit depth is 8 and the buffer length / color-space hint match a channel
interpretation — otherwise the record yields no entry at all. -/
theorem walk_entry_format_by_filter (p : Nat) (st : WState) (r : XObjCand)
    (w h : Int)
    (h1 : r.isRawStream = true) (h2 : r.subtype = some "/Image")
    (h3 : r.width = some w) (h4 : r.height = some h)
    (h5 : ¬(w ≤ 0 ∨ h ≤ 0))
    (h6 : st.hashes.contains (walkFingerprint w h r.contents) = false) :
    ((strIncl (r.filter.getD "") "DCTDecode" || strIncl (r.filter.getD "") "/DCT") = true →
      (procWalkObj p st r).entries =
        st.entries ++ [⟨st.count + 1, p, "jpg", Payload.jpgRaw r.contents⟩])
    ∧ ((strIncl (r.filter.getD "") "DCTDecode" || strIncl (r.filter.getD "") "/DCT") = false →
       (strIncl (r.filter.getD "") "FlateDecode" || strIncl (r.filter.getD "") "/Flat"
          || (r.filter.getD "" == "")) = false →
      (procWalkObj p st r).entries =
        st.entries ++ [⟨st.count + 1, p, "bin", Payload.binRaw r.contents⟩])
    ∧ (∀ d : List Nat,
       (strIncl (r.filter.getD "") "DCTDecode" || strIncl (r.filter.getD "") "/DCT") = false →
       (strIncl (r.filter.getD "") "FlateDecode" || strIncl (r.filter.getD "") "/Flat"
          || (r.filter.getD "" == "")) = true →
       r.decodedStream = some d → effBpc r = 8 →
       chooseInterp (w.toNat * h.toNat) d.length (strIncl (r.colorSpace.getD "") "RGB")
         (strIncl (r.colorSpace.getD "") "Gray" || strIncl (r.colorSpace.getD "") "Grey")
         ≠ ChannelInterp.skipI →
       ∃ pl, (procWalkObj p st r).entries =
         st.entries ++ [⟨st.count + 1, p, "png", Payload.pngPixels pl⟩])
    ∧ ((strIncl (r.filter.getD "") "DCTDecode" || strIncl (r.filter.getD "") "/DCT") = false →
       (strIncl (r.filter.getD "") "FlateDecode" || strIncl (r.filter.getD "") "/Flat"
          || (r.filter.getD "" == "")) = true →
       (r.decodedStream = none ∨ effBpc r ≠ 8 ∨
        (∀ d : List Nat, r.decodedStream = some d →
          chooseInterp (w.toNat * h.toNat) d.length (strIncl (r.colorSpace.getD "") "RGB")
            (strIncl (r.colorSpace.getD "") "Gray" || strIncl (r.colorSpace.getD "") "Grey")
            = ChannelInterp.skipI)) →
       (procWalkObj p st r).entries = st.entries) := by
  have hdec := walkDecision_guards st.hashes r w h h1 h2 h3 h4 h5 h6
  refine ⟨?_, ?_, ?_, ?_⟩
  · intro hdct
    unfold procWalkObj
    rw [hdec]
    simp [hdct, applyWalkAction]
  · intro hdct hflate
    unfold procWalkObj
    rw [hdec]
    simp [hdct, hflate, applyWalkAction]
  · intro d hdct hflate hdd hbpc hskip
    unfold procWalkObj
    rw [hdec]
    simp only [hdct, hflate, hdd, hbpc, Bool.false_eq_true, if_false, if_true, ne_eq,
      not_true_eq_false, reduceIte]
    rcases hc : chooseInterp (w.toNat * h.toNat) d.length (strIncl (r.colorSpace.getD "") "RGB")
        (strIncl (r.colorSpace.getD "") "Gray" || strIncl (r.colorSpace.getD "") "Grey") with
      _ | _ | _ | _
    · exact ⟨rgbToRgba (w.toNat * h.toNat) d, by simp [applyWalkAction]⟩
    · exact ⟨grayToRgba (w.toNat * h.toNat) d, by simp [applyWalkAction]⟩
    · exact ⟨d, by simp [applyWalkAction]⟩
    · exact absurd hc hskip
  · intro hdct hflate hcase
    unfold procWalkObj
    rw [hdec]
    simp only [hdct, hflate, Bool.false_eq_true, if_false, if_true, reduceIte]
    rcases hcase with hnone | hbpc | hskip
    · rw [hnone]
      rfl
    · rcases hdd : r.decodedStream with _ | d
      · rfl
      · simp [hbpc, applyWalkAction]
    · rcases hdd : r.decodedStream with _ | d
      · rfl
      · by_cases hbpc : effBpc r = 8
        · simp only [hbpc, ne_eq, not_true_eq_false, if_false, reduceIte]
          rw [hskip d hdd]
          rfl
        · simp [hbpc, applyWalkAction]

/-- C7 witness: the concrete DCT record is emitted as a `.jpg` entry with
its raw bytes. -/
theorem walk_entry_format_by_filter_witness :
    (procWalkObj 1 initW rDct).entries =
      initW.entries ++ [⟨initW.count + 1, 1, "jpg", Payload.jpgRaw rDct.contents⟩] :=
  (walk_entry_format_by_filter 1 initW rDct 1 1 rfl rfl rfl rfl (by decide)
    (by decide)).1 (by decide)

/-- C7 counterexample.  An accepted deflate-filtered record whose decoded
buffer length (2) matches no channel count for its 1×1 dimensions yields no
archive entry at all, contradicting the claim that a deflate-style filter
yields a `.png` entry. -/
theorem flate_record_without_entry :
    strIncl (rBadFlate.filter.getD "") "FlateDecode" = true
    ∧ rBadFlate.decodedStream = some [0, 0]
    ∧ (procWalkObj 1 initW rBadFlate).entries = [] :=
  ⟨by decide, rfl, rfl⟩

/-- C8 amended.  A deflate-filtered image record whose declared
bits-per-component is neither 8 nor a falsy value (0 / missing are coerced
to 8 by `numberValue || 8`) is skipped: its fingerprint is recorded but no
entry is produced, the counter is unchanged, and the page loop simply
continues with the remaining objects — nothing is aborted. -/
theorem nonzero_bad_bpc_record_skipped (p : Nat) (st : WState) (r : XObjCand)
    (w h : Int) (n : Nat)
    (h1 : r.isRawStream = true) (h2 : r.subtype = some "/Image")
    (h3 : r.width = some w) (h4 : r.height = some h)
    (h5 : ¬(w ≤ 0 ∨ h ≤ 0))
    (h6 : st.hashes.contains (walkFingerprint w h r.contents) = false)
    (hb : r.bitsPerComponent = some n) (hn8 : n ≠ 8) (hn0 : n ≠ 0)
    (hdct : (strIncl (r.filter.getD "") "DCTDecode" || strIncl (r.filter.getD "") "/DCT") = false)
    (hflate : (strIncl (r.filter.getD "") "FlateDecode" || strIncl (r.filter.getD "") "/Flat"
        || (r.filter.getD "" == "")) = true) :
    procWalkObj p st r = { st with hashes := walkFingerprint w h r.contents :: st.hashes }
    ∧ (procWalkObj p st r).entries = st.entries
    ∧ (procWalkObj p st r).count = st.count
    ∧ ∀ rest : List XObjCand,
        walkPage p st (r :: rest) =
          walkPage p { st with hashes := walkFingerprint w h r.contents :: st.hashes } rest := by
  have hbpc : effBpc r ≠ 8 := by
    unfold effBpc
    rw [hb]
    simp [hn0, hn8]
  have hdec := walkDecision_guards st.hashes r w h h1 h2 h3 h4 h5 h6
  have hmain : procWalkObj p st r =
      { st with hashes := walkFingerprint w h r.contents :: st.hashes } := by
    unfold procWalkObj
    rw [hdec]
    simp only [hdct, hflate, Bool.false_eq_true, if_false, if_true, reduceIte]
    rcases hdd : r.decodedStream with _ | d
    · rfl
    · simp [hbpc, applyWalkAction]
  refine ⟨hmain, by rw [hmain], by rw [hmain], ?_⟩
  intro rest
  unfold walkPage
  rw [List.foldl_cons, hmain]

/-- C8 witness: the concrete 16-bit flate record is skipped with only its
fingerprint recorded. -/
theorem nonzero_bad_bpc_record_skipped_witness :
    procWalkObj 1 initW rBpc16 =
      { initW with hashes := walkFingerprint 1 1 rBpc16.contents :: initW.hashes } :=
  (nonzero_bad_bpc_record_skipped 1 initW rBpc16 1 1 16 rfl rfl rfl rfl (by decide)
    (by decide) rfl (by decide) (by decide) (by decide) (by decide)).1

/-- C8 counterexample.  A deflate record with a declared bits-per-component
of 0 — which is "not 8" — is *not* skipped: the falsy-coalescing read
`numberValue || 8` coerces 0 to 8 and the record is decoded and emitted as a
`.png` entry. -/
theorem bpc_zero_record_not_skipped :
    rBpc0.bitsPerComponent = some 0
    ∧ (procWalkObj 1 initW rBpc0).entries =
        [⟨1, 1, "png", Payload.pngPixels [7, 7, 7, 255]⟩] :=
  ⟨rfl, rfl⟩

/-- C3 counterexample.  A walker-fingerprinted record and a harvester raw
record that agree on width (1), height (1), byte length (1) and content
bytes (`[5]`) receive different fingerprints (`1x1_5_1` vs
`pdfjs_raw_1x1_1`), and the harvester occurrence is emitted rather than
suppressed: extraction of the combined document returns one entry. -/
theorem cross_strategy_fingerprints_differ :
    walkFingerprint 1 1 [5] ≠ harvRawKey 1 1 1
    ∧ rFlateFail.contents = [5]
    ∧ hRaw.shape = HarvShape.raw 1 1 [5] 200
    ∧ extractPDFImages docC3 =
        Except.ok [⟨1, 1, "png", Payload.pngPixels [5, 5, 5, 255]⟩] :=
  ⟨by decide, rfl, rfl, rfl⟩

/-- C3 amended.  Fingerprint agreement and suppression hold per provenance:
two walker-sourced records agreeing on width, height, byte length and the
first ≤100 content bytes receive equal fingerprints; a harvester raw
fingerprint is a function of dimensions and length alone; a walker record
whose fingerprint is already in the dedup set is skipped entirely; a
harvester raw item whose fingerprint is already in the set is merely marked
processed and emits nothing.  (Walker and harvester fingerprints live in
different namespaces, see the counterexample.) -/
theorem fingerprint_same_provenance_dedup :
    (∀ (w h : Int) (b1 b2 : List Nat), b1.length = b2.length →
        b1.take 100 = b2.take 100 →
        walkFingerprint w h b1 = walkFingerprint w h b2)
    ∧ (∀ (w h : Nat) (d1 d2 : List Nat), d1.length = d2.length →
        harvRawKey w h d1.length = harvRawKey w h d2.length)
    ∧ (∀ (p : Nat) (st : WState) (r : XObjCand) (w h : Int),
        r.isRawStream = true → r.subtype = some "/Image" →
        r.width = some w → r.height = some h → ¬(w ≤ 0 ∨ h ≤ 0) →
        st.hashes.contains (walkFingerprint w h r.contents) = true →
        procWalkObj p st r = st)
    ∧ (∀ (p : Nat) (st : HState) (it : HarvItem) (w h : Nat) (d : List Nat) (bs : Nat),
        it.fnIsImage = true → st.processed.contains it.name = false →
        it.shape = HarvShape.raw w h d bs → ¬(w = 0 ∨ h = 0) →
        st.hashes.contains (harvRawKey w h d.length) = true →
        procHarvItem p st it = { st with processed := it.name :: st.processed }) := by
  refine ⟨?_, ?_, ?_, ?_⟩
  · intro w h b1 b2 hlen htake
    unfold walkFingerprint jsHash
    rw [htake, hlen]
  · intro w h d1 d2 hlen
    rw [hlen]
  · intro p st r w h h1 h2 h3 h4 h5 h6
    have h6m : walkFingerprint w h r.contents ∈ st.hashes := by simpa using h6
    unfold procWalkObj walkDecision
    rw [h1, h2, h3, h4]
    simp [h5, h6m, applyWalkAction]
  · intro p st it w h d bs hfn hproc hshape h5 h6
    have h6m : harvRawKey w h d.length ∈ st.hashes := by simpa using h6
    unfold procHarvItem harvDecision
    rw [hfn, hproc, hshape]
    simp [h5, h6m, applyHarvAction]

/-- C3 witness: equal walker four-tuples give equal fingerprints, and a
walker record whose fingerprint is already in the dedup set is skipped. -/
theorem fingerprint_same_provenance_dedup_witness :
    walkFingerprint 1 1 [5] = walkFingerprint 1 1 [5]
    ∧ procWalkObj 1 ⟨["1x1_5_1"], 0, []⟩ rFlateFail = ⟨["1x1_5_1"], 0, []⟩ := by
  constructor
  · exact fingerprint_same_provenance_dedup.1 1 1 [5] [5] rfl rfl
  · exact fingerprint_same_provenance_dedup.2.2.1 1 ⟨["1x1_5_1"], 0, []⟩ rFlateFail 1 1
      rfl rfl rfl rfl (by decide) (by decide)

end PDFree
